import Mathlib

/-!
Shallow embedding of the archive-access layer of muos_frontend
(src/common/archive.c, src/common/archive_ssmc.c).

The external "Chunk Store Service" (the sprite_shrink FFI: manifest
decoding, chunk-index preparation, digest lookup, dictionary
decompression) and the C runtime's file I/O are modelled as oracle
fields of an `Env` record; the control flow of the C functions is
translated branch for branch.  Machine strings are Lean `String`s
(`List Char` where pointer arithmetic on the bytes matters), byte
buffers are `List Nat`, and the single output file an extraction call
manages is tracked as a `FileState`.
-/

namespace MuosArchive

/-- Physical location of one compressed chunk inside the data section
(C struct `FFIChunkLocation`: `offset`, `length`). -/
structure FFIChunkLocation where
  offset : Nat
  length : Nat
deriving Repr, DecidableEq

/-- One chunk descriptor of a 64-bit-digest manifest record
(C struct `FFISSAChunkMeta_u64`: `hash`, decompressed `length`). -/
structure FFISSAChunkMeta_u64 where
  hash : Nat
  length : Nat
deriving Repr, DecidableEq

/-- One chunk descriptor of a 128-bit-digest manifest record
(C struct `FFISSAChunkMeta_U128Bytes`: `hash.bytes`, decompressed `length`);
the 128-bit digest is its byte array. -/
structure FFISSAChunkMeta_U128Bytes where
  hash : List Nat
  length : Nat
deriving Repr, DecidableEq

/-- One manifest record, 64-bit width (C struct `FFIFileManifestParentU64`):
a filename and the ordered chunk-descriptor list. -/
structure FFIFileManifestParentU64 where
  filename : String
  chunk_metadata : List FFISSAChunkMeta_u64
deriving Repr, DecidableEq

/-- One manifest record, 128-bit width (C struct `FFIFileManifestParentU128`). -/
structure FFIFileManifestParentU128 where
  filename : String
  chunk_metadata : List FFISSAChunkMeta_U128Bytes
deriving Repr, DecidableEq

/-- Decoded manifest, 64-bit width (C struct `FFIParsedManifestArrayU64`:
`manifests` pointer plus `manifests_len`). -/
structure FFIParsedManifestArrayU64 where
  manifests : List FFIFileManifestParentU64
deriving Repr, DecidableEq

/-- Decoded manifest, 128-bit width (C struct `FFIParsedManifestArrayU128`). -/
structure FFIParsedManifestArrayU128 where
  manifests : List FFIFileManifestParentU128
deriving Repr, DecidableEq

/-- The fixed archive header (C struct `FileHeader`): magic bytes, the
digest-width selector `hash_type`, and (offset, length) pairs for the
manifest, chunk-index, dictionary and data sections. -/
structure FileHeader where
  magic_num : List Nat
  hash_type : Nat
  man_offset : Nat
  man_length : Nat
  chunk_index_offset : Nat
  chunk_index_length : Nat
  dict_offset : Nat
  dict_length : Nat
  data_offset : Nat
  data_length : Nat
deriving Repr, DecidableEq

/-- Kind tag of a listing entry (C enum values `ARCHIVE_ENTRY_FILE`, …). -/
inductive ArchiveEntryType where
  | file
  | directory
deriving Repr, DecidableEq

/-- One raw listing entry (C struct `ArchiveEntry`): duplicated path
string, kind, and original manifest index. -/
structure ArchiveEntry where
  path : String
  type : ArchiveEntryType
  index : Nat
deriving Repr, DecidableEq

/-- State of the single output file `target_dir/<filename>` that an
extraction call manages: absent from the target directory, or present
with the given byte content. Calls start with the file absent. -/
inductive FileState where
  | absent
  | written (content : List Nat)
deriving Repr, DecidableEq

/-- Oracle environment: the archive file's bytes and I/O outcomes, and
the Chunk Store Service (sprite_shrink FFI) behaviour for one call.
`read off len` models `fseek(off)` followed by `fread` of `len` bytes
(`none` = seek failure or short read); `prepare_chunk_index_*` return
the digest-lookup map backing the opaque index handle; `fwriteOk i`
tells whether the append of chunk `i` to the output file succeeds. -/
structure Env where
  MAGIC : List Nat
  fopenArchiveOk : Bool
  readHeader : Option FileHeader
  read : Nat → Nat → Option (List Nat)
  parse_file_metadata_u64 : List Nat → Nat → Option FFIParsedManifestArrayU64
  parse_file_metadata_u128 : List Nat → Nat → Option FFIParsedManifestArrayU128
  prepare_chunk_index_u64 : List Nat → Nat → Option (Nat → Option FFIChunkLocation)
  prepare_chunk_index_u128 : List Nat → Nat → Option (List Nat → Option FFIChunkLocation)
  decompress_chunk_c : List Nat → Nat → List Nat → Nat → Nat → Option (List Nat)
  fopenOutOk : Bool
  fwriteOk : Nat → Bool

/-- Generic file resolution, the common shape of the two inline
resolution blocks of `extract_u64` / `extract_u128`: a non-negative
in-bounds `file_index` selects directly, otherwise a non-null
`file_inside_archive` is matched by exact filename scan in manifest
order, otherwise no record is selected. -/
def resolveIdxName {α : Type} (manifests : List α) (name : α → String)
    (file_inside_archive : Option String) (file_index : Int) : Option α :=
  if 0 ≤ file_index ∧ file_index.toNat < manifests.length then
    manifests[file_index.toNat]?
  else
    match file_inside_archive with
    | some n => manifests.find? (fun m => name m == n)
    | none => none

/-- File resolution of `extract_u64` (archive_ssmc.c lines 219-237). -/
def resolve_u64 (pm : FFIParsedManifestArrayU64)
    (file_inside_archive : Option String) (file_index : Int) :
    Option FFIFileManifestParentU64 :=
  resolveIdxName pm.manifests (fun m => m.filename) file_inside_archive file_index

/-- File resolution of `extract_u128` (archive_ssmc.c lines 390-407). -/
def resolve_u128 (pm : FFIParsedManifestArrayU128)
    (file_inside_archive : Option String) (file_index : Int) :
    Option FFIFileManifestParentU128 :=
  resolveIdxName pm.manifests (fun m => m.filename) file_inside_archive file_index

/-- The per-chunk reconstruction loop of `extract_u64` (archive_ssmc.c
lines 248-319): for chunk `i`, look up the digest, read the compressed
bytes at `data_offset + location.offset`, decompress against the
dictionary, and append; `.error partial` is any mid-loop failure with
the bytes appended so far, `.ok content` is full success. -/
def chunkLoop_u64 (env : Env) (header : FileHeader) (dictionary_buf : List Nat)
    (handle : Nat → Option FFIChunkLocation) :
    List FFISSAChunkMeta_u64 → Nat → List Nat → Except (List Nat) (List Nat)
  | [], _, acc => Except.ok acc
  | cm :: rest, i, acc =>
    match handle cm.hash with
    | none => Except.error acc
    | some location =>
      match env.read (header.data_offset + location.offset) location.length with
      | none => Except.error acc
      | some comp_buf =>
        match env.decompress_chunk_c comp_buf location.length
            dictionary_buf header.dict_length cm.length with
        | none => Except.error acc
        | some decomp_buf =>
          if env.fwriteOk i then
            chunkLoop_u64 env header dictionary_buf handle rest (i + 1) (acc ++ decomp_buf)
          else
            Except.error acc

/-- The per-chunk reconstruction loop of `extract_u128` (archive_ssmc.c
lines 418-489), identical to `chunkLoop_u64` up to digest width. -/
def chunkLoop_u128 (env : Env) (header : FileHeader) (dictionary_buf : List Nat)
    (handle : List Nat → Option FFIChunkLocation) :
    List FFISSAChunkMeta_U128Bytes → Nat → List Nat → Except (List Nat) (List Nat)
  | [], _, acc => Except.ok acc
  | cm :: rest, i, acc =>
    match handle cm.hash with
    | none => Except.error acc
    | some location =>
      match env.read (header.data_offset + location.offset) location.length with
      | none => Except.error acc
      | some comp_buf =>
        match env.decompress_chunk_c comp_buf location.length
            dictionary_buf header.dict_length cm.length with
        | none => Except.error acc
        | some decomp_buf =>
          if env.fwriteOk i then
            chunkLoop_u128 env header dictionary_buf handle rest (i + 1) (acc ++ decomp_buf)
          else
            Except.error acc

/-- The `cleanup` tail of `extract_u64` / `extract_u128`: on success
return the output path with the fully written file; on any loop failure
`remove(output_path)` deletes the partial file and NULL is returned. -/
def finishExtract (output_path : String) :
    Except (List Nat) (List Nat) → Option String × FileState
  | Except.ok content => (some output_path, FileState.written content)
  | Except.error _ => (none, FileState.absent)

/-- `extract_u64` (archive_ssmc.c lines 186-337): parse the manifest,
prepare the chunk index, resolve the target record, open
`target_dir/<filename>`, run the chunk loop, and clean up. -/
def extract_u64 (env : Env) (header : FileHeader)
    (manifest_buf chunk_index_buf dictionary_buf : List Nat)
    (file_inside_archive : Option String) (file_index : Int)
    (target_dir : String) : Option String × FileState :=
  match env.parse_file_metadata_u64 manifest_buf header.man_length with
  | none => (none, FileState.absent)
  | some p_manifest64 =>
    match env.prepare_chunk_index_u64 chunk_index_buf header.chunk_index_length with
    | none => (none, FileState.absent)
    | some chunk_index_handle64 =>
      match resolve_u64 p_manifest64 file_inside_archive file_index with
      | none => (none, FileState.absent)
      | some target_manifest =>
        if env.fopenOutOk then
          finishExtract (target_dir ++ "/" ++ target_manifest.filename)
            (chunkLoop_u64 env header dictionary_buf chunk_index_handle64
              target_manifest.chunk_metadata 0 [])
        else
          (none, FileState.absent)

/-- `extract_u128` (archive_ssmc.c lines 357-508), identical to
`extract_u64` up to digest width. -/
def extract_u128 (env : Env) (header : FileHeader)
    (manifest_buf chunk_index_buf dictionary_buf : List Nat)
    (file_inside_archive : Option String) (file_index : Int)
    (target_dir : String) : Option String × FileState :=
  match env.parse_file_metadata_u128 manifest_buf header.man_length with
  | none => (none, FileState.absent)
  | some p_manifest128 =>
    match env.prepare_chunk_index_u128 chunk_index_buf header.chunk_index_length with
    | none => (none, FileState.absent)
    | some chunk_index_handle128 =>
      match resolve_u128 p_manifest128 file_inside_archive file_index with
      | none => (none, FileState.absent)
      | some target_manifest =>
        if env.fopenOutOk then
          finishExtract (target_dir ++ "/" ++ target_manifest.filename)
            (chunkLoop_u128 env header dictionary_buf chunk_index_handle128
              target_manifest.chunk_metadata 0 [])
        else
          (none, FileState.absent)

/-- `ssmc_extract_file` (archive_ssmc.c lines 527-626): open the
archive, read and check the header, load the manifest / chunk-index /
dictionary sections, and dispatch on `hash_type`. -/
def ssmc_extract_file (env : Env) (file_inside_archive : Option String)
    (file_index : Int) (target_dir : String) : Option String × FileState :=
  if env.fopenArchiveOk then
    match env.readHeader with
    | none => (none, FileState.absent)
    | some header =>
      if header.magic_num = env.MAGIC then
        match env.read header.man_offset header.man_length with
        | none => (none, FileState.absent)
        | some manifest_buf =>
          match env.read header.chunk_index_offset header.chunk_index_length with
          | none => (none, FileState.absent)
          | some chunk_index_buf =>
            match env.read header.dict_offset header.dict_length with
            | none => (none, FileState.absent)
            | some dictionary_buf =>
              if header.hash_type = 1 then
                extract_u64 env header manifest_buf chunk_index_buf dictionary_buf
                  file_inside_archive file_index target_dir
              else if header.hash_type = 2 then
                extract_u128 env header manifest_buf chunk_index_buf dictionary_buf
                  file_inside_archive file_index target_dir
              else
                (none, FileState.absent)
      else
        (none, FileState.absent)
  else
    (none, FileState.absent)

/-- The entry-building loop of `ssmc_list_contents` (archive_ssmc.c
lines 113-136): entry `i` duplicates the `i`-th decoded filename, is
tagged `ARCHIVE_ENTRY_FILE`, and carries its manifest index. -/
def buildEntries : List String → Nat → List ArchiveEntry
  | [], _ => []
  | f :: rest, i => ⟨f, ArchiveEntryType.file, i⟩ :: buildEntries rest (i + 1)

/-- The decode-and-materialise tail of `ssmc_list_contents` once the
manifest bytes are in memory (archive_ssmc.c lines 72-139): dispatch on
`hash_type`, reject a record count of zero, and build the entry array;
the returned `Nat` is the value stored in `*count`. -/
def list_decode (env : Env) (header : FileHeader) (manifest_buffer : List Nat) :
    Option (List ArchiveEntry) × Nat :=
  if header.hash_type = 1 then
    match env.parse_file_metadata_u64 manifest_buffer header.man_length with
    | none => (none, 0)
    | some parsed_manifest64 =>
      if parsed_manifest64.manifests.length = 0 then (none, 0)
      else
        (some (buildEntries (parsed_manifest64.manifests.map (fun m => m.filename)) 0),
         parsed_manifest64.manifests.length)
  else if header.hash_type = 2 then
    match env.parse_file_metadata_u128 manifest_buffer header.man_length with
    | none => (none, 0)
    | some parsed_manifest128 =>
      if parsed_manifest128.manifests.length = 0 then (none, 0)
      else
        (some (buildEntries (parsed_manifest128.manifests.map (fun m => m.filename)) 0),
         parsed_manifest128.manifests.length)
  else
    (none, 0)

/-- `ssmc_list_contents` (archive_ssmc.c lines 17-166): open the
archive, read and check the header, load the manifest section, decode
it at the declared digest width, and materialise one
`ARCHIVE_ENTRY_FILE` entry per manifest record; every failure path
leaves `*count = 0` and returns NULL. -/
def ssmc_list_contents (env : Env) : Option (List ArchiveEntry) × Nat :=
  if env.fopenArchiveOk then
    match env.readHeader with
    | none => (none, 0)
    | some header =>
      if header.magic_num = env.MAGIC then
        match env.read header.man_offset header.man_length with
        | none => (none, 0)
        | some manifest_buffer => list_decode env header manifest_buffer
      else
        (none, 0)
  else
    (none, 0)

/-! ## Handler registry (archive.c) -/

/-- `MAX_HANDLERS` (archive.c line 8). -/
def MAX_HANDLERS : Nat := 50

/-- `register_archive_handler` (archive.c lines 13-32) over the
registry list: handlers are pointers, modelled as `Nat` identities with
NULL as `Option.none`; a NULL handler, a full registry, and an
already-present pointer are silent no-ops, otherwise the handler is
appended. -/
def register_archive_handler (handler : Option Nat) (regs : List Nat) : List Nat :=
  match handler with
  | none => regs
  | some h =>
    if MAX_HANDLERS ≤ regs.length then regs
    else if regs.contains h then regs
    else regs ++ [h]

/-- `get_handler_for_file` (archive.c lines 38-50): NULL filename gives
NULL, otherwise the first registered handler whose `is_supported`
predicate (the oracle `sup`) accepts the filename. -/
def get_handler_for_file (sup : Nat → String → Bool) (regs : List Nat)
    (filename : Option String) : Option Nat :=
  match filename with
  | none => none
  | some f => regs.find? (fun h => sup h f)

/-! ## Extension matcher (archive.c lines 57-70) -/

/-- ASCII `tolower`, as `strcasecmp` applies it byte by byte. -/
def asciiLower (c : Char) : Char :=
  if 'A' ≤ c ∧ c ≤ 'Z' then Char.ofNat (c.toNat + 32) else c

/-- `strcasecmp(a, b) == 0`: equality after ASCII lowercasing. -/
def strcaseEq (a b : List Char) : Bool :=
  a.map asciiLower = b.map asciiLower

/-- `strrchr(l, c)` as the suffix of `l` starting at the last
occurrence of `c` (`none` when `c` does not occur); the C pointer
`strrchr` returns is this suffix viewed in place. -/
def strrchrSuffix (c : Char) : List Char → Option (List Char)
  | [] => none
  | x :: xs =>
    match strrchrSuffix c xs with
    | some s => some s
    | none => if x = c then some (x :: xs) else none

/-- `archive_helper_is_ext_supported` (archive.c lines 57-70):
`file_ext = strrchr(filename, '.')` is the suffix from the last dot
(dot included); no dot, or `file_ext == filename` (the last dot is the
first character), gives false; otherwise the suffix is compared
case-insensitively against each list entry. -/
def archive_helper_is_ext_supported (filename : List Char)
    (extensions : List (List Char)) : Bool :=
  match strrchrSuffix '.' filename with
  | none => false
  | some file_ext =>
    if file_ext.length = filename.length then false
    else extensions.any (fun e => strcaseEq file_ext e)

/-! ## Listing projector (archive.c lines 72-152) -/

/-- `MAX_ARCHIVE_DISPLAY_ITEMS` (archive.c line 9). -/
def MAX_ARCHIVE_DISPLAY_ITEMS : Nat := 255

/-- The filtering loop of `archive_list_contents` (archive.c lines
99-117): walk the handler's raw entries in order, keep file-kind
entries whose path holds no path separator, and stop once
`valid_item_count` reaches the display cap; `n` is the running
`valid_item_count`. -/
def listLoop : List ArchiveEntry → Nat → List String
  | [], _ => []
  | e :: rest, n =>
    if MAX_ARCHIVE_DISPLAY_ITEMS ≤ n then []
    else if e.type = ArchiveEntryType.file ∧ ¬(e.path.contains '/' = true) then
      e.path :: listLoop rest (n + 1)
    else
      listLoop rest n

/-- `archive_list_contents` (archive.c lines 72-152) downstream of the
handler call, on the raw entry list the handler returned: project the
entries through `listLoop`; `*count` receives the kept-entry count and
NULL is returned when nothing was kept. -/
def archive_list_contents (entries : List ArchiveEntry) :
    Option (List String) × Nat :=
  let working_list := listLoop entries 0
  (if 0 < working_list.length then some working_list else none,
   working_list.length)

/-- Eligibility predicate of the listing projector: file kind, no '/'
in the path. -/
def eligibleEntry (e : ArchiveEntry) : Bool :=
  decide (e.type = ArchiveEntryType.file) && !(e.path.contains '/')

/-! ## Concrete test environments -/

/-- A well-formed header for the concrete scenarios: digest width 1,
sections at distinct offsets. -/
def hdr0 : FileHeader :=
  ⟨[83, 83, 77, 67], 1, 64, 32, 96, 32, 128, 16, 144, 64⟩

/-- One manifest record "a.txt" with two chunk descriptors of
decompressed lengths 4 and 6. -/
def pm0 : FFIParsedManifestArrayU64 :=
  ⟨[⟨"a.txt", [⟨11, 4⟩, ⟨22, 6⟩]⟩]⟩

/-- Chunk lookup resolving both digests of `pm0`. -/
def lookup0 : Nat → Option FFIChunkLocation :=
  fun h => if h = 11 then some ⟨0, 3⟩ else if h = 22 then some ⟨3, 5⟩ else none

/-- Environment in which the two-chunk extraction fully succeeds. -/
def env0 : Env where
  MAGIC := [83, 83, 77, 67]
  fopenArchiveOk := true
  readHeader := some hdr0
  read := fun _ l => some (List.replicate l 7)
  parse_file_metadata_u64 := fun _ _ => some pm0
  parse_file_metadata_u128 := fun _ _ => none
  prepare_chunk_index_u64 := fun _ _ => some lookup0
  prepare_chunk_index_u128 := fun _ _ => none
  decompress_chunk_c := fun _ _ _ _ n => some (List.replicate n 9)
  fopenOutOk := true
  fwriteOk := fun _ => true

/-- Like `env0`, but the chunk-store lookup fails on the second digest
of the two-chunk file. -/
def envLookupFail : Env where
  MAGIC := [83, 83, 77, 67]
  fopenArchiveOk := true
  readHeader := some hdr0
  read := fun _ l => some (List.replicate l 7)
  parse_file_metadata_u64 := fun _ _ => some pm0
  parse_file_metadata_u128 := fun _ _ => none
  prepare_chunk_index_u64 :=
    fun _ _ => some (fun h => if h = 11 then some ⟨0, 3⟩ else none)
  prepare_chunk_index_u128 := fun _ _ => none
  decompress_chunk_c := fun _ _ _ _ n => some (List.replicate n 9)
  fopenOutOk := true
  fwriteOk := fun _ => true

/-- A header whose magic bytes differ from `env0.MAGIC`. -/
def hdrBadMagic : FileHeader :=
  ⟨[0, 0, 0, 0], 1, 64, 32, 96, 32, 128, 16, 144, 64⟩

/-- A header with the unsupported digest-width selector 3. -/
def hdrHash3 : FileHeader :=
  ⟨[83, 83, 77, 67], 3, 64, 32, 96, 32, 128, 16, 144, 64⟩

/-- Like `env0`, but the header's magic bytes differ from the expected
constant. -/
def envBadMagic : Env where
  MAGIC := [83, 83, 77, 67]
  fopenArchiveOk := true
  readHeader := some hdrBadMagic
  read := fun _ l => some (List.replicate l 7)
  parse_file_metadata_u64 := fun _ _ => some pm0
  parse_file_metadata_u128 := fun _ _ => none
  prepare_chunk_index_u64 := fun _ _ => some lookup0
  prepare_chunk_index_u128 := fun _ _ => none
  decompress_chunk_c := fun _ _ _ _ n => some (List.replicate n 9)
  fopenOutOk := true
  fwriteOk := fun _ => true

/-- Like `env0`, but the header declares the unsupported digest-width
selector 3. -/
def envHash3 : Env where
  MAGIC := [83, 83, 77, 67]
  fopenArchiveOk := true
  readHeader := some hdrHash3
  read := fun _ l => some (List.replicate l 7)
  parse_file_metadata_u64 := fun _ _ => some pm0
  parse_file_metadata_u128 := fun _ _ => none
  prepare_chunk_index_u64 := fun _ _ => some lookup0
  prepare_chunk_index_u128 := fun _ _ => none
  decompress_chunk_c := fun _ _ _ _ n => some (List.replicate n 9)
  fopenOutOk := true
  fwriteOk := fun _ => true

/-- Like `env0`, but the manifest decodes to zero records. -/
def envZeroRecords : Env where
  MAGIC := [83, 83, 77, 67]
  fopenArchiveOk := true
  readHeader := some hdr0
  read := fun _ l => some (List.replicate l 7)
  parse_file_metadata_u64 := fun _ _ => some ⟨[]⟩
  parse_file_metadata_u128 := fun _ _ => none
  prepare_chunk_index_u64 := fun _ _ => some lookup0
  prepare_chunk_index_u128 := fun _ _ => none
  decompress_chunk_c := fun _ _ _ _ n => some (List.replicate n 9)
  fopenOutOk := true
  fwriteOk := fun _ => true

/-! ## Helper lemmas -/

theorem finishExtract_fst_none {p : String} {r : Except (List Nat) (List Nat)}
    (h : (finishExtract p r).1 = none) : (finishExtract p r).2 = FileState.absent := by
  cases r with
  | ok content => simp [finishExtract] at h
  | error partialContent => rfl

theorem extract_u64_fst_none (env : Env) (header : FileHeader)
    (m c d : List Nat) (n : Option String) (i : Int) (t : String)
    (h : (extract_u64 env header m c d n i t).1 = none) :
    (extract_u64 env header m c d n i t).2 = FileState.absent := by
  revert h
  unfold extract_u64
  repeat' split
  all_goals intro h
  all_goals first | rfl | exact finishExtract_fst_none h

theorem extract_u128_fst_none (env : Env) (header : FileHeader)
    (m c d : List Nat) (n : Option String) (i : Int) (t : String)
    (h : (extract_u128 env header m c d n i t).1 = none) :
    (extract_u128 env header m c d n i t).2 = FileState.absent := by
  revert h
  unfold extract_u128
  repeat' split
  all_goals intro h
  all_goals first | rfl | exact finishExtract_fst_none h

/-! ## C1 -/

/-- C1: extraction is atomic.  Whenever `ssmc_extract_file` returns no
result — the archive fails to open, the header is bad, a section load
fails, either width-specific helper fails at parse, index preparation,
resolution, output open, or any per-chunk lookup / read / decompression
/ write step — the output file `target_dir/<manifest filename>` is
absent after the call; no partially written file is observable. -/
theorem ssmc_extract_file_atomic (env : Env) (n : Option String) (i : Int)
    (t : String) (h : (ssmc_extract_file env n i t).1 = none) :
    (ssmc_extract_file env n i t).2 = FileState.absent := by
  revert h
  unfold ssmc_extract_file
  repeat' split
  all_goals intro h
  all_goals first
    | rfl
    | exact extract_u64_fst_none _ _ _ _ _ _ _ _ h
    | exact extract_u128_fst_none _ _ _ _ _ _ _ _ h

/-- C1 witness: the chunk-store lookup fails on the second chunk of the
two-chunk file "a.txt"; the call returns no result and the output file
is absent. -/
theorem ssmc_extract_file_atomic_witness :
    (ssmc_extract_file envLookupFail (some "a.txt") (-1) "/tmp").1 = none ∧
    (ssmc_extract_file envLookupFail (some "a.txt") (-1) "/tmp").2 = FileState.absent :=
  ⟨by decide, ssmc_extract_file_atomic envLookupFail (some "a.txt") (-1) "/tmp" (by decide)⟩

/-! ## C2 -/

/-- C2: in a well-formed archive of digest width 1 whose manifest holds
one record "a.txt" with chunk descriptors of decompressed lengths 4 and
6, when both digests resolve, both reads succeed, both decompressions
succeed and both appends succeed, `ssmc_extract_file` returns
`target_dir/a.txt` and the output file is the 10-byte concatenation of
the two decompressed payloads in descriptor order. -/
theorem ssmc_extract_two_chunk_scenario (env : Env) (hdr : FileHeader)
    (target_dir : String) (dg1 dg2 : Nat) (loc1 loc2 : FFIChunkLocation)
    (mbuf cbuf dbuf c1 c2 p1 p2 : List Nat) (lk : Nat → Option FFIChunkLocation)
    (hopen : env.fopenArchiveOk = true)
    (hhdr : env.readHeader = some hdr)
    (hmagic : hdr.magic_num = env.MAGIC)
    (hwidth : hdr.hash_type = 1)
    (hman : env.read hdr.man_offset hdr.man_length = some mbuf)
    (hcidx : env.read hdr.chunk_index_offset hdr.chunk_index_length = some cbuf)
    (hdict : env.read hdr.dict_offset hdr.dict_length = some dbuf)
    (hparse : env.parse_file_metadata_u64 mbuf hdr.man_length =
      some ⟨[⟨"a.txt", [⟨dg1, 4⟩, ⟨dg2, 6⟩]⟩]⟩)
    (hprep : env.prepare_chunk_index_u64 cbuf hdr.chunk_index_length = some lk)
    (hlk1 : lk dg1 = some loc1) (hlk2 : lk dg2 = some loc2)
    (hr1 : env.read (hdr.data_offset + loc1.offset) loc1.length = some c1)
    (hr2 : env.read (hdr.data_offset + loc2.offset) loc2.length = some c2)
    (hd1 : env.decompress_chunk_c c1 loc1.length dbuf hdr.dict_length 4 = some p1)
    (hd2 : env.decompress_chunk_c c2 loc2.length dbuf hdr.dict_length 6 = some p2)
    (hp1 : p1.length = 4) (hp2 : p2.length = 6)
    (hout : env.fopenOutOk = true)
    (hw0 : env.fwriteOk 0 = true) (hw1 : env.fwriteOk 1 = true) :
    ssmc_extract_file env (some "a.txt") (-1) target_dir =
      (some (target_dir ++ "/" ++ "a.txt"), FileState.written (p1 ++ p2)) ∧
    (p1 ++ p2).length = 10 := by
  constructor
  · unfold ssmc_extract_file
    rw [hopen, hhdr]
    simp only [hmagic, hwidth, hman, hcidx, hdict, if_true]
    unfold extract_u64
    have hres : resolve_u64 ⟨[⟨"a.txt", [⟨dg1, 4⟩, ⟨dg2, 6⟩]⟩]⟩
        (some "a.txt") (-1) = some ⟨"a.txt", [⟨dg1, 4⟩, ⟨dg2, 6⟩]⟩ := by
      unfold resolve_u64 resolveIdxName
      simp
    simp only [hparse, hprep, hres, hout, if_true]
    unfold chunkLoop_u64
    simp only [hlk1, hr1, hd1, hw0, if_true]
    unfold chunkLoop_u64
    simp only [hlk2, hr2, hd2, hw1, if_true]
    unfold chunkLoop_u64
    simp [finishExtract]
  · simp [hp1, hp2]

/-- C2 witness: the concrete environment `env0` realises the scenario;
the extracted file is the two decompressed payloads concatenated, 10
bytes long. -/
theorem ssmc_extract_two_chunk_scenario_witness :
    ssmc_extract_file env0 (some "a.txt") (-1) "/tmp" =
      (some ("/tmp" ++ "/" ++ "a.txt"),
        FileState.written (List.replicate 4 9 ++ List.replicate 6 9)) ∧
    (List.replicate 4 9 ++ List.replicate 6 9).length = 10 :=
  ssmc_extract_two_chunk_scenario env0 hdr0 "/tmp" 11 22 ⟨0, 3⟩ ⟨3, 5⟩
    (List.replicate 32 7) (List.replicate 32 7) (List.replicate 16 7)
    (List.replicate 3 7) (List.replicate 5 7)
    (List.replicate 4 9) (List.replicate 6 9) lookup0
    rfl rfl rfl rfl rfl rfl rfl rfl rfl rfl rfl rfl rfl rfl rfl rfl rfl rfl rfl rfl

/-! ## C3 -/

theorem resolveIdxName_inbounds {α : Type} (manifests : List α) (nm : α → String)
    (n? : Option String) (idx : Int)
    (h : 0 ≤ idx ∧ idx.toNat < manifests.length) :
    resolveIdxName manifests nm n? idx = manifests[idx.toNat]? := by
  unfold resolveIdxName
  rw [if_pos h]

theorem resolveIdxName_fallback {α : Type} (manifests : List α) (nm : α → String)
    (n : String) (idx : Int) (h : ¬(0 ≤ idx ∧ idx.toNat < manifests.length)) :
    resolveIdxName manifests nm (some n) idx =
      manifests.find? (fun m => nm m == n) := by
  unfold resolveIdxName
  rw [if_neg h]

theorem resolveIdxName_noName {α : Type} (manifests : List α) (nm : α → String)
    (idx : Int) (h : ¬(0 ≤ idx ∧ idx.toNat < manifests.length)) :
    resolveIdxName manifests nm none idx = none := by
  unfold resolveIdxName
  rw [if_neg h]

theorem extract_u64_resolve_none (env : Env) (hdr : FileHeader)
    (mbuf cbuf dbuf : List Nat) (name? : Option String) (idx : Int)
    (t : String) (pm : FFIParsedManifestArrayU64)
    (hparse : env.parse_file_metadata_u64 mbuf hdr.man_length = some pm)
    (hres : resolve_u64 pm name? idx = none) :
    extract_u64 env hdr mbuf cbuf dbuf name? idx t = (none, FileState.absent) := by
  unfold extract_u64
  cases hp : env.prepare_chunk_index_u64 cbuf hdr.chunk_index_length with
  | none => simp [hparse, hp]
  | some handle => simp [hparse, hp, hres]

theorem extract_u128_resolve_none (env : Env) (hdr : FileHeader)
    (mbuf cbuf dbuf : List Nat) (name? : Option String) (idx : Int)
    (t : String) (pm : FFIParsedManifestArrayU128)
    (hparse : env.parse_file_metadata_u128 mbuf hdr.man_length = some pm)
    (hres : resolve_u128 pm name? idx = none) :
    extract_u128 env hdr mbuf cbuf dbuf name? idx t = (none, FileState.absent) := by
  unfold extract_u128
  cases hp : env.prepare_chunk_index_u128 cbuf hdr.chunk_index_length with
  | none => simp [hparse, hp]
  | some handle => simp [hparse, hp, hres]

theorem resolve_u64_empty (name? : Option String) (idx : Int) :
    resolve_u64 ⟨[]⟩ name? idx = none := by
  cases name? <;> simp [resolve_u64, resolveIdxName]

theorem resolve_u128_empty (name? : Option String) (idx : Int) :
    resolve_u128 ⟨[]⟩ name? idx = none := by
  cases name? <;> simp [resolve_u128, resolveIdxName]

theorem find?_some_first {α : Type} (p : α → Bool) (l : List α) (a : α)
    (h : l.find? p = some a) :
    p a = true ∧ ∃ i : Nat, l[i]? = some a ∧
      ∀ j : Nat, j < i → ∀ b, l[j]? = some b → p b = false := by
  induction l with
  | nil => simp at h
  | cons x xs ih =>
    by_cases hx : p x
    · rw [List.find?_cons_of_pos _ hx] at h
      injection h with h
      subst h
      exact ⟨hx, 0, by simp, fun j hj => absurd hj (Nat.not_lt_zero j)⟩
    · rw [List.find?_cons_of_neg _ (by simpa using hx)] at h
      obtain ⟨hpa, i, hi, hfirst⟩ := ih h
      refine ⟨hpa, i + 1, by simpa using hi, ?_⟩
      intro j hj b hb
      cases j with
      | zero =>
        rw [List.getElem?_cons_zero] at hb
        injection hb with hb
        subst hb
        simpa using hx
      | succ k =>
        rw [List.getElem?_cons_succ] at hb
        exact hfirst k (by omega) b hb

theorem find?_some_of_exists {α : Type} (p : α → Bool) (l : List α)
    (h : ∃ x ∈ l, p x = true) :
    ∃ a, l.find? p = some a ∧ p a = true := by
  obtain ⟨x, hx, hpx⟩ := h
  cases hfind : l.find? p with
  | none => exact absurd hpx (by simpa using List.find?_eq_none.mp hfind x hx)
  | some a => exact ⟨a, rfl, List.find?_some hfind⟩

/-- C3: file resolution, both digest widths.  A non-negative in-bounds
index selects the record at that index even when a name is also given;
otherwise a given name selects the first record (in manifest order)
whose filename compares exactly equal — whenever some record's
filename matches, resolution succeeds and selects such a record — and
fails when no filename matches; with no name and no usable index,
resolution fails, and a failed resolution makes the width-specific
extractor return no result with no output file. -/
theorem file_resolution_spec :
    (∀ (pm : FFIParsedManifestArrayU64) (name? : Option String) (idx : Int),
      (0 ≤ idx ∧ idx.toNat < pm.manifests.length →
        resolve_u64 pm name? idx = pm.manifests[idx.toNat]?) ∧
      (¬(0 ≤ idx ∧ idx.toNat < pm.manifests.length) →
        (∀ n m, resolve_u64 pm (some n) idx = some m →
          m.filename = n ∧ ∃ i : Nat, pm.manifests[i]? = some m ∧
            ∀ j : Nat, j < i → ∀ m2, pm.manifests[j]? = some m2 → m2.filename ≠ n) ∧
        (∀ n, (∀ m ∈ pm.manifests, m.filename ≠ n) →
          resolve_u64 pm (some n) idx = none) ∧
        (∀ n, (∃ m ∈ pm.manifests, m.filename = n) →
          ∃ m, resolve_u64 pm (some n) idx = some m ∧ m.filename = n) ∧
        resolve_u64 pm none idx = none)) ∧
    (∀ (pm : FFIParsedManifestArrayU128) (name? : Option String) (idx : Int),
      (0 ≤ idx ∧ idx.toNat < pm.manifests.length →
        resolve_u128 pm name? idx = pm.manifests[idx.toNat]?) ∧
      (¬(0 ≤ idx ∧ idx.toNat < pm.manifests.length) →
        (∀ n m, resolve_u128 pm (some n) idx = some m →
          m.filename = n ∧ ∃ i : Nat, pm.manifests[i]? = some m ∧
            ∀ j : Nat, j < i → ∀ m2, pm.manifests[j]? = some m2 → m2.filename ≠ n) ∧
        (∀ n, (∀ m ∈ pm.manifests, m.filename ≠ n) →
          resolve_u128 pm (some n) idx = none) ∧
        (∀ n, (∃ m ∈ pm.manifests, m.filename = n) →
          ∃ m, resolve_u128 pm (some n) idx = some m ∧ m.filename = n) ∧
        resolve_u128 pm none idx = none)) ∧
    (∀ (env : Env) (hdr : FileHeader) (mbuf cbuf dbuf : List Nat)
        (name? : Option String) (idx : Int) (t : String)
        (pm : FFIParsedManifestArrayU64),
      env.parse_file_metadata_u64 mbuf hdr.man_length = some pm →
      resolve_u64 pm name? idx = none →
      extract_u64 env hdr mbuf cbuf dbuf name? idx t = (none, FileState.absent)) ∧
    (∀ (env : Env) (hdr : FileHeader) (mbuf cbuf dbuf : List Nat)
        (name? : Option String) (idx : Int) (t : String)
        (pm : FFIParsedManifestArrayU128),
      env.parse_file_metadata_u128 mbuf hdr.man_length = some pm →
      resolve_u128 pm name? idx = none →
      extract_u128 env hdr mbuf cbuf dbuf name? idx t = (none, FileState.absent)) := by
  refine ⟨fun pm name? idx => ⟨?_, ?_⟩, fun pm name? idx => ⟨?_, ?_⟩, ?_, ?_⟩
  · exact fun h => resolveIdxName_inbounds _ _ _ _ h
  · intro h
    refine ⟨?_, ?_, ?_, resolveIdxName_noName _ _ _ h⟩
    · intro n m hm
      rw [resolve_u64, resolveIdxName_fallback _ _ _ _ h] at hm
      obtain ⟨hpa, i, hi, hfirst⟩ := find?_some_first _ _ _ hm
      refine ⟨by simpa using hpa, i, hi, ?_⟩
      intro j hj m2 hm2
      have := hfirst j hj m2 hm2
      simpa using this
    · intro n hnone
      rw [resolve_u64, resolveIdxName_fallback _ _ _ _ h]
      rw [List.find?_eq_none]
      intro m hm
      simpa using hnone m hm
    · intro n hex
      rw [resolve_u64, resolveIdxName_fallback _ _ _ _ h]
      obtain ⟨x, hx, hnx⟩ := hex
      obtain ⟨m, hfind, hpm⟩ :=
        find?_some_of_exists (fun m => m.filename == n) pm.manifests
          ⟨x, hx, by simp [hnx]⟩
      exact ⟨m, hfind, by simpa using hpm⟩
  · exact fun h => resolveIdxName_inbounds _ _ _ _ h
  · intro h
    refine ⟨?_, ?_, ?_, resolveIdxName_noName _ _ _ h⟩
    · intro n m hm
      rw [resolve_u128, resolveIdxName_fallback _ _ _ _ h] at hm
      obtain ⟨hpa, i, hi, hfirst⟩ := find?_some_first _ _ _ hm
      refine ⟨by simpa using hpa, i, hi, ?_⟩
      intro j hj m2 hm2
      have := hfirst j hj m2 hm2
      simpa using this
    · intro n hnone
      rw [resolve_u128, resolveIdxName_fallback _ _ _ _ h]
      rw [List.find?_eq_none]
      intro m hm
      simpa using hnone m hm
    · intro n hex
      rw [resolve_u128, resolveIdxName_fallback _ _ _ _ h]
      obtain ⟨x, hx, hnx⟩ := hex
      obtain ⟨m, hfind, hpm⟩ :=
        find?_some_of_exists (fun m => m.filename == n) pm.manifests
          ⟨x, hx, by simp [hnx]⟩
      exact ⟨m, hfind, by simpa using hpm⟩
  · intro env hdr mbuf cbuf dbuf name? idx t pm hparse hres
    exact extract_u64_resolve_none env hdr mbuf cbuf dbuf name? idx t pm hparse hres
  · intro env hdr mbuf cbuf dbuf name? idx t pm hparse hres
    exact extract_u128_resolve_none env hdr mbuf cbuf dbuf name? idx t pm hparse hres

/-- Two-record manifest used by the resolution witness: a valid index
and a valid name that denote different records. -/
def pm2 : FFIParsedManifestArrayU64 :=
  ⟨[⟨"a.txt", [⟨11, 4⟩]⟩, ⟨"b.txt", [⟨22, 6⟩]⟩]⟩

/-- C3 witness: with both index 0 and the different name "b.txt"
supplied, the index wins; with index -1 the matching name "b.txt"
resolves to a record named "b.txt"; an out-of-bounds index with an
unmatched name resolves to nothing; no name and no index resolves to
nothing; and a failed resolution makes `extract_u64` return no result
and no file. -/
theorem file_resolution_spec_witness :
    resolve_u64 pm2 (some "b.txt") 0 = pm2.manifests[(0 : Int).toNat]? ∧
    (∃ m, resolve_u64 pm2 (some "b.txt") (-1) = some m ∧ m.filename = "b.txt") ∧
    resolve_u64 pm2 (some "zzz") (-1) = none ∧
    resolve_u64 pm2 none 5 = none ∧
    extract_u64 env0 hdr0 [] [] [] none 5 "/tmp" = (none, FileState.absent) :=
  ⟨(file_resolution_spec.1 pm2 (some "b.txt") 0).1 (by decide),
   ((file_resolution_spec.1 pm2 (some "b.txt") (-1)).2 (by decide)).2.2.1 "b.txt"
     (by decide),
   ((file_resolution_spec.1 pm2 (some "zzz") (-1)).2 (by decide)).2.1 "zzz" (by decide),
   ((file_resolution_spec.1 pm2 none 5).2 (by decide)).2.2.2,
   file_resolution_spec.2.2.1 env0 hdr0 [] [] [] none 5 "/tmp" pm0 rfl (by decide)⟩

/-! ## C4 -/

theorem listLoop_eq_filter_take (entries : List ArchiveEntry) (n : Nat)
    (h : n ≤ MAX_ARCHIVE_DISPLAY_ITEMS) :
    listLoop entries n =
      ((entries.filter eligibleEntry).map (fun e => e.path)).take
        (MAX_ARCHIVE_DISPLAY_ITEMS - n) := by
  induction entries generalizing n with
  | nil => simp [listLoop]
  | cons e rest ih =>
    rw [listLoop]
    by_cases hn : MAX_ARCHIVE_DISPLAY_ITEMS ≤ n
    · have hz : MAX_ARCHIVE_DISPLAY_ITEMS - n = 0 := by omega
      rw [if_pos hn, hz, List.take_zero]
    · rw [if_neg hn]
      by_cases he : e.type = ArchiveEntryType.file ∧ ¬(e.path.contains '/' = true)
      · rw [if_pos he]
        have hel : eligibleEntry e = true := by
          unfold eligibleEntry
          simp [he.1, he.2]
        rw [List.filter_cons_of_pos hel, List.map_cons]
        have hsucc : MAX_ARCHIVE_DISPLAY_ITEMS - n =
            (MAX_ARCHIVE_DISPLAY_ITEMS - (n + 1)) + 1 := by omega
        rw [hsucc, List.take_succ_cons, ih (n + 1) (by omega)]
      · rw [if_neg he]
        have hel : eligibleEntry e = false := by
          unfold eligibleEntry
          by_cases ht : e.type = ArchiveEntryType.file
          · by_cases hc : e.path.contains '/' = true
            · simp [hc]
            · exact absurd ⟨ht, hc⟩ he
          · simp [ht]
        rw [List.filter_cons_of_neg (by simp [hel]), ih n (by omega)]

/-- C4: listing projection.  For a raw handler entry list,
`archive_list_contents` keeps exactly the file-kind entries whose path
holds no '/' separator, in their original order, truncated at 255; the
returned count is min(eligible count, 255), and NULL stands for zero
kept entries. -/
theorem archive_list_contents_projection (entries : List ArchiveEntry) :
    (archive_list_contents entries).2 =
      min ((entries.filter eligibleEntry).length) MAX_ARCHIVE_DISPLAY_ITEMS ∧
    (archive_list_contents entries).1 =
      (if (entries.filter eligibleEntry).length = 0 then none
       else some (((entries.filter eligibleEntry).map (fun e => e.path)).take
         MAX_ARCHIVE_DISPLAY_ITEMS)) := by
  unfold archive_list_contents
  rw [listLoop_eq_filter_take entries 0 (by omega), Nat.sub_zero]
  constructor
  · simp [List.length_take, Nat.min_comm]
  · by_cases h0 : (entries.filter eligibleEntry).length = 0
    · simp [h0, List.eq_nil_of_length_eq_zero h0]
    · have hpos : 0 < (((entries.filter eligibleEntry).map
          (fun e => e.path)).take MAX_ARCHIVE_DISPLAY_ITEMS).length := by
        rw [List.length_take, List.length_map]
        have : 0 < MAX_ARCHIVE_DISPLAY_ITEMS := by decide
        omega
      simp [h0, hpos]
      decide

/-! ## C5 -/

/-- C5: a magic-signature mismatch makes `ssmc_list_contents` return
NULL with count 0 and makes `ssmc_extract_file` return NULL for every
requested name, index and target directory, with no output file
created. -/
theorem magic_mismatch_rejects (env : Env) (hdr : FileHeader)
    (hopen : env.fopenArchiveOk = true)
    (hhdr : env.readHeader = some hdr)
    (hmagic : ¬hdr.magic_num = env.MAGIC) :
    ssmc_list_contents env = (none, 0) ∧
    ∀ n i t, ssmc_extract_file env n i t = (none, FileState.absent) := by
  constructor
  · unfold ssmc_list_contents
    simp [hopen, hhdr, hmagic]
  · intro n i t
    unfold ssmc_extract_file
    simp [hopen, hhdr, hmagic]

/-- C5 witness: in `envBadMagic` the header's magic bytes differ from
the expected constant; listing and extraction both return absent
results and no file is written. -/
theorem magic_mismatch_rejects_witness :
    ssmc_list_contents envBadMagic = (none, 0) ∧
    ssmc_extract_file envBadMagic (some "a.txt") 0 "/tmp" = (none, FileState.absent) :=
  ⟨(magic_mismatch_rejects envBadMagic hdrBadMagic rfl rfl (by decide)).1,
   (magic_mismatch_rejects envBadMagic hdrBadMagic rfl rfl (by decide)).2
     (some "a.txt") 0 "/tmp"⟩

/-! ## C6 -/

/-- C6: the digest-width selector is a closed two-way choice.  With the
header loaded and all three sections read, a `hash_type` other than 1
and 2 makes both `ssmc_list_contents` and `ssmc_extract_file` return
absent results; selector 1 routes extraction through `extract_u64` and
listing through the u64 decoder, selector 2 likewise through the u128
path. -/
theorem hash_type_dispatch (env : Env) (hdr : FileHeader)
    (mbuf cbuf dbuf : List Nat)
    (hopen : env.fopenArchiveOk = true)
    (hhdr : env.readHeader = some hdr)
    (hmagic : hdr.magic_num = env.MAGIC)
    (hman : env.read hdr.man_offset hdr.man_length = some mbuf)
    (hcidx : env.read hdr.chunk_index_offset hdr.chunk_index_length = some cbuf)
    (hdict : env.read hdr.dict_offset hdr.dict_length = some dbuf) :
    (hdr.hash_type ≠ 1 → hdr.hash_type ≠ 2 →
      ssmc_list_contents env = (none, 0) ∧
      ∀ n i t, ssmc_extract_file env n i t = (none, FileState.absent)) ∧
    (hdr.hash_type = 1 →
      (∀ n i t, ssmc_extract_file env n i t =
        extract_u64 env hdr mbuf cbuf dbuf n i t) ∧
      (env.parse_file_metadata_u64 mbuf hdr.man_length = none →
        ssmc_list_contents env = (none, 0)) ∧
      (∀ pm, env.parse_file_metadata_u64 mbuf hdr.man_length = some pm →
        pm.manifests.length ≠ 0 →
        ssmc_list_contents env =
          (some (buildEntries (pm.manifests.map (fun m => m.filename)) 0),
           pm.manifests.length))) ∧
    (hdr.hash_type = 2 →
      (∀ n i t, ssmc_extract_file env n i t =
        extract_u128 env hdr mbuf cbuf dbuf n i t) ∧
      (env.parse_file_metadata_u128 mbuf hdr.man_length = none →
        ssmc_list_contents env = (none, 0)) ∧
      (∀ pm, env.parse_file_metadata_u128 mbuf hdr.man_length = some pm →
        pm.manifests.length ≠ 0 →
        ssmc_list_contents env =
          (some (buildEntries (pm.manifests.map (fun m => m.filename)) 0),
           pm.manifests.length))) := by
  refine ⟨fun h1 h2 => ⟨?_, fun n i t => ?_⟩, fun hw => ⟨fun n i t => ?_, fun hp => ?_, fun pm hp hlen => ?_⟩, fun hw => ⟨fun n i t => ?_, fun hp => ?_, fun pm hp hlen => ?_⟩⟩
  · unfold ssmc_list_contents list_decode
    simp [hopen, hhdr, hmagic, hman, h1, h2]
  · unfold ssmc_extract_file
    simp [hopen, hhdr, hmagic, hman, hcidx, hdict, h1, h2]
  · unfold ssmc_extract_file
    simp [hopen, hhdr, hmagic, hman, hcidx, hdict, hw]
  · unfold ssmc_list_contents list_decode
    simp [hopen, hhdr, hmagic, hman, hw, hp]
  · unfold ssmc_list_contents list_decode
    simp [hopen, hhdr, hmagic, hman, hw, hp, hlen]
  · unfold ssmc_extract_file
    simp [hopen, hhdr, hmagic, hman, hcidx, hdict, hw]
  · unfold ssmc_list_contents list_decode
    simp [hopen, hhdr, hmagic, hman, hw, hp]
  · unfold ssmc_list_contents list_decode
    simp [hopen, hhdr, hmagic, hman, hw, hp, hlen]

/-- C6 witness: selector 3 is rejected by both operations
(`envHash3`), and in `env0` selector 1 routes extraction through
`extract_u64` and listing through the u64 decoder. -/
theorem hash_type_dispatch_witness :
    ssmc_list_contents envHash3 = (none, 0) ∧
    ssmc_extract_file envHash3 (some "a.txt") 0 "/tmp" = (none, FileState.absent) ∧
    ssmc_extract_file env0 (some "a.txt") 0 "/tmp" =
      extract_u64 env0 hdr0 (List.replicate 32 7) (List.replicate 32 7)
        (List.replicate 16 7) (some "a.txt") 0 "/tmp" ∧
    ssmc_list_contents env0 =
      (some (buildEntries (pm0.manifests.map (fun m => m.filename)) 0),
       pm0.manifests.length) :=
  ⟨((hash_type_dispatch envHash3 hdrHash3 (List.replicate 32 7)
      (List.replicate 32 7) (List.replicate 16 7)
      rfl rfl rfl rfl rfl rfl).1 (by decide) (by decide)).1,
   ((hash_type_dispatch envHash3 hdrHash3 (List.replicate 32 7)
      (List.replicate 32 7) (List.replicate 16 7)
      rfl rfl rfl rfl rfl rfl).1 (by decide) (by decide)).2 (some "a.txt") 0 "/tmp",
   ((hash_type_dispatch env0 hdr0 (List.replicate 32 7)
      (List.replicate 32 7) (List.replicate 16 7)
      rfl rfl rfl rfl rfl rfl).2.1 rfl).1 (some "a.txt") 0 "/tmp",
   ((hash_type_dispatch env0 hdr0 (List.replicate 32 7)
      (List.replicate 32 7) (List.replicate 16 7)
      rfl rfl rfl rfl rfl rfl).2.1 rfl).2.2 pm0 rfl (by decide)⟩

/-! ## C9 -/

/-- C9: a decoded record count of zero is a malformed-archive error:
listing returns NULL with count 0, and extraction returns NULL for
every requested name and index without creating a file. -/
theorem zero_records_rejected (env : Env) (hdr : FileHeader) (mbuf : List Nat)
    (hopen : env.fopenArchiveOk = true)
    (hhdr : env.readHeader = some hdr)
    (hmagic : hdr.magic_num = env.MAGIC)
    (hman : env.read hdr.man_offset hdr.man_length = some mbuf)
    (hzero : (hdr.hash_type = 1 ∧
        env.parse_file_metadata_u64 mbuf hdr.man_length = some ⟨[]⟩) ∨
      (hdr.hash_type = 2 ∧
        env.parse_file_metadata_u128 mbuf hdr.man_length = some ⟨[]⟩)) :
    ssmc_list_contents env = (none, 0) ∧
    ∀ n i t, ssmc_extract_file env n i t = (none, FileState.absent) := by
  rcases hzero with ⟨hw, hp⟩ | ⟨hw, hp⟩
  · constructor
    · unfold ssmc_list_contents list_decode
      simp [hopen, hhdr, hmagic, hman, hw, hp]
    · intro n i t
      unfold ssmc_extract_file
      cases hc : env.read hdr.chunk_index_offset hdr.chunk_index_length with
      | none => simp [hopen, hhdr, hmagic, hman, hc]
      | some cbuf =>
        cases hd : env.read hdr.dict_offset hdr.dict_length with
        | none => simp [hopen, hhdr, hmagic, hman, hc, hd]
        | some dbuf =>
          simp [hopen, hhdr, hmagic, hman, hc, hd, hw,
            extract_u64_resolve_none env hdr mbuf cbuf dbuf n i t ⟨[]⟩ hp
              (resolve_u64_empty n i)]
  · constructor
    · unfold ssmc_list_contents list_decode
      simp [hopen, hhdr, hmagic, hman, hw, hp]
    · intro n i t
      unfold ssmc_extract_file
      cases hc : env.read hdr.chunk_index_offset hdr.chunk_index_length with
      | none => simp [hopen, hhdr, hmagic, hman, hc]
      | some cbuf =>
        cases hd : env.read hdr.dict_offset hdr.dict_length with
        | none => simp [hopen, hhdr, hmagic, hman, hc, hd]
        | some dbuf =>
          simp [hopen, hhdr, hmagic, hman, hc, hd, hw,
            extract_u128_resolve_none env hdr mbuf cbuf dbuf n i t ⟨[]⟩ hp
              (resolve_u128_empty n i)]

/-- C9 witness: in `envZeroRecords` the manifest decodes to zero
records; listing returns NULL with count 0 and a concrete extraction
request returns NULL with no file. -/
theorem zero_records_rejected_witness :
    ssmc_list_contents envZeroRecords = (none, 0) ∧
    ssmc_extract_file envZeroRecords (some "a.txt") 0 "/tmp" = (none, FileState.absent) :=
  ⟨(zero_records_rejected envZeroRecords hdr0 (List.replicate 32 7)
      rfl rfl rfl rfl (Or.inl ⟨rfl, rfl⟩)).1,
   (zero_records_rejected envZeroRecords hdr0 (List.replicate 32 7)
      rfl rfl rfl rfl (Or.inl ⟨rfl, rfl⟩)).2 (some "a.txt") 0 "/tmp"⟩

/-! ## C7 -/

theorem register_archive_handler_idem (regs : List Nat) (h : Nat) :
    register_archive_handler (some h) (register_archive_handler (some h) regs) =
      register_archive_handler (some h) regs := by
  by_cases hcap : MAX_HANDLERS ≤ regs.length
  · simp [register_archive_handler, hcap]
  · by_cases hmem : h ∈ regs
    · simp [register_archive_handler, hcap, hmem]
    · by_cases hcap2 : MAX_HANDLERS ≤ (regs ++ [h]).length
      · simp [register_archive_handler, hcap, hmem, hcap2]
      · simp [register_archive_handler, hcap, hmem, hcap2]

/-- C7: registry idempotence and priority.  Registering the same
handler pointer twice leaves exactly one entry; registering NULL or
registering past capacity 50 is a no-op; lookup with a NULL filename
gives NULL; a successful lookup returns the first handler in
registration order whose predicate accepts the filename; when no
registered handler accepts the filename the lookup gives NULL; and
whenever some registered handler accepts the filename the lookup
succeeds, returning an accepting handler. -/
theorem registry_spec :
    (∀ (regs : List Nat) (h : Nat), h ∉ regs → regs.length < MAX_HANDLERS →
      (register_archive_handler (some h)
        (register_archive_handler (some h) regs)).count h = 1) ∧
    (∀ (regs : List Nat) (h : Nat),
      register_archive_handler (some h) (register_archive_handler (some h) regs) =
        register_archive_handler (some h) regs) ∧
    (∀ regs, register_archive_handler none regs = regs) ∧
    (∀ (regs : List Nat) (h : Nat), MAX_HANDLERS ≤ regs.length →
      register_archive_handler (some h) regs = regs) ∧
    (∀ (sup : Nat → String → Bool) (regs : List Nat),
      get_handler_for_file sup regs none = none) ∧
    (∀ (sup : Nat → String → Bool) (regs : List Nat) (f : String) (g : Nat),
      get_handler_for_file sup regs (some f) = some g →
      sup g f = true ∧ ∃ i : Nat, regs[i]? = some g ∧
        ∀ j : Nat, j < i → ∀ g2, regs[j]? = some g2 → sup g2 f = false) ∧
    (∀ (sup : Nat → String → Bool) (regs : List Nat) (f : String),
      (∀ g ∈ regs, sup g f = false) →
      get_handler_for_file sup regs (some f) = none) ∧
    (∀ (sup : Nat → String → Bool) (regs : List Nat) (f : String),
      (∃ g ∈ regs, sup g f = true) →
      ∃ g, get_handler_for_file sup regs (some f) = some g ∧ sup g f = true) := by
  refine ⟨?_, register_archive_handler_idem, fun regs => rfl, ?_, fun sup regs => rfl,
    ?_, ?_, ?_⟩
  · intro regs h hni hlen
    rw [register_archive_handler_idem]
    have hne : ¬ MAX_HANDLERS ≤ regs.length := by omega
    have h0 : regs.count h = 0 := List.count_eq_zero.mpr hni
    simp [register_archive_handler, hne, hni, List.count_append, h0]
  · intro regs h hcap
    simp [register_archive_handler, hcap]
  · intro sup regs f g hfind
    exact find?_some_first _ _ _ hfind
  · intro sup regs f hnone
    unfold get_handler_for_file
    rw [List.find?_eq_none]
    intro g hg
    simp [hnone g hg]
  · intro sup regs f hex
    unfold get_handler_for_file
    exact find?_some_of_exists (fun h => sup h f) regs hex

/-- C7 witness: from an empty registry, registering handler 5 twice
leaves exactly one entry; registering NULL is a no-op; a full registry
rejects new handlers; lookup with no filename gives NULL; with two
registered handlers both accepting "x.ssmc", the lookup concretely
returns handler 1 and the theorem certifies it as the first acceptor;
a never-accepting predicate yields NULL; and since an acceptor exists
the lookup is guaranteed to succeed with an accepting handler. -/
theorem registry_spec_witness :
    (register_archive_handler (some 5)
      (register_archive_handler (some 5) [])).count 5 = 1 ∧
    register_archive_handler none [1, 2] = [1, 2] ∧
    register_archive_handler (some 9) (List.replicate 50 0) = List.replicate 50 0 ∧
    get_handler_for_file (fun _ _ => true) [1, 2] none = none ∧
    ((fun (_ : Nat) (_ : String) => true) 1 "x.ssmc" = true ∧
      ∃ i : Nat, [1, 2][i]? = some 1 ∧ ∀ j : Nat, j < i → ∀ g2,
        [1, 2][j]? = some g2 →
          (fun (_ : Nat) (_ : String) => true) g2 "x.ssmc" = false) ∧
    get_handler_for_file (fun _ _ => false) [1, 2] (some "x.ssmc") = none ∧
    (∃ g, get_handler_for_file (fun _ _ => true) [1, 2] (some "x.ssmc") = some g ∧
      (fun (_ : Nat) (_ : String) => true) g "x.ssmc" = true) :=
  ⟨registry_spec.1 [] 5 (by decide) (by decide),
   registry_spec.2.2.1 [1, 2],
   registry_spec.2.2.2.1 (List.replicate 50 0) 9 (by decide),
   registry_spec.2.2.2.2.1 (fun _ _ => true) [1, 2],
   registry_spec.2.2.2.2.2.1 (fun _ _ => true) [1, 2] "x.ssmc" 1 (by decide),
   registry_spec.2.2.2.2.2.2.1 (fun _ _ => false) [1, 2] "x.ssmc"
     (fun g _ => rfl),
   registry_spec.2.2.2.2.2.2.2 (fun _ _ => true) [1, 2] "x.ssmc"
     ⟨1, by decide, rfl⟩⟩

/-! ## C8 -/

theorem strrchrSuffix_eq_none (c : Char) (l : List Char) :
    strrchrSuffix c l = none ↔ c ∉ l := by
  induction l with
  | nil => simp [strrchrSuffix]
  | cons x xs ih =>
    rw [strrchrSuffix]
    cases hx : strrchrSuffix c xs with
    | some s =>
      have hc : c ∈ xs := by
        by_contra hnc
        rw [ih.mpr hnc] at hx
        exact absurd hx (by simp)
      simp [hc]
    | none =>
      have hc : c ∉ xs := ih.mp hx
      by_cases hxc : x = c
      · simp [hxc]
      · have : ¬c = x := fun hh => hxc hh.symm
        simp [hxc, hc, this]

theorem strrchrSuffix_append (c : Char) (pre t : List Char) (h : c ∉ t) :
    strrchrSuffix c (pre ++ c :: t) = some (c :: t) := by
  induction pre with
  | nil =>
    have hn : strrchrSuffix c t = none := (strrchrSuffix_eq_none c t).mpr h
    rw [List.nil_append, strrchrSuffix, hn]
    simp
  | cons x xs ih =>
    rw [List.cons_append, strrchrSuffix, ih]

theorem strrchrSuffix_some_spec (c : Char) (l : List Char) :
    ∀ s, strrchrSuffix c l = some s →
      ∃ pre t, l = pre ++ c :: t ∧ s = c :: t ∧ c ∉ t := by
  induction l with
  | nil => intro s h; exact absurd h (by simp [strrchrSuffix])
  | cons x xs ih =>
    intro s h
    rw [strrchrSuffix] at h
    cases hx : strrchrSuffix c xs with
    | some s2 =>
      rw [hx] at h
      injection h with h
      obtain ⟨pre, t, hl, hs, hn⟩ := ih s2 hx
      exact ⟨x :: pre, t, by rw [hl, List.cons_append], by rw [← h, hs], hn⟩
    | none =>
      rw [hx] at h
      by_cases hxc : x = c
      · rw [if_pos hxc] at h
        injection h with h
        refine ⟨[], xs, by rw [List.nil_append, hxc], by rw [← h, hxc],
          (strrchrSuffix_eq_none c xs).mp hx⟩
      · rw [if_neg hxc] at h
        exact absurd h (by simp)

theorem lastSep_unique {c : Char} {p1 t1 p2 t2 : List Char}
    (h : p1 ++ c :: t1 = p2 ++ c :: t2) (h1 : c ∉ t1) (h2 : c ∉ t2) :
    p1 = p2 ∧ t1 = t2 := by
  induction p1 generalizing p2 with
  | nil =>
    cases p2 with
    | nil =>
      simp only [List.nil_append, List.cons.injEq] at h
      exact ⟨rfl, h.2⟩
    | cons y ys =>
      simp only [List.nil_append, List.cons_append, List.cons.injEq] at h
      exfalso
      apply h1
      rw [h.2]
      exact List.mem_append_right ys (List.mem_cons_self c t2)
  | cons x xs ih =>
    cases p2 with
    | nil =>
      simp only [List.nil_append, List.cons_append, List.cons.injEq] at h
      exfalso
      apply h2
      rw [← h.2]
      exact List.mem_append_right xs (List.mem_cons_self c t1)
    | cons y ys =>
      simp only [List.cons_append, List.cons.injEq] at h
      obtain ⟨hp, ht⟩ := ih h.2
      exact ⟨by rw [h.1, hp], ht⟩

/-- Modelled from the spec's words, for comparison only: the substring
strictly after the last '.', dot excluded — the extension as C8 reads
it. -/
def ext_after_last_dot (filename : List Char) : Option (List Char) :=
  if filename.contains '.' then
    some ((filename.reverse.takeWhile (fun c => c != '.')).reverse)
  else
    none

/-- C8 counterexample: for filename "a.zip" and extension list
containing the entry "zip" (no leading dot), the substring after the
last '.' is "zip", the '.' exists and is not the first character, and
"zip" matches the entry case-insensitively — yet
`archive_helper_is_ext_supported` returns false, because the code
compares the dot-prefixed suffix ".zip" against the entries. -/
theorem ext_supported_claim_counterexample :
    ext_after_last_dot ['a', '.', 'z', 'i', 'p'] = some ['z', 'i', 'p'] ∧
    (['z', 'i', 'p'] ∈ [['z', 'i', 'p']] ∧
      strcaseEq ['z', 'i', 'p'] ['z', 'i', 'p'] = true) ∧
    archive_helper_is_ext_supported ['a', '.', 'z', 'i', 'p']
      [['z', 'i', 'p']] = false := by
  decide

/-- C8 amended: `archive_helper_is_ext_supported` returns true exactly
when the filename splits as `pre ++ '.' :: ext` with `pre` non-empty
and `ext` dot-free (so `'.' :: ext` is the suffix from the last dot,
dot included), and that dot-prefixed suffix compares case-insensitively
equal to some entry of the extension list; with no '.', or with the
last '.' as first character, it returns false. -/
theorem ext_supported_amended (filename : List Char) (extensions : List (List Char)) :
    archive_helper_is_ext_supported filename extensions = true ↔
      ∃ pre ext, filename = pre ++ '.' :: ext ∧ pre ≠ [] ∧ '.' ∉ ext ∧
        ∃ e ∈ extensions, strcaseEq ('.' :: ext) e = true := by
  unfold archive_helper_is_ext_supported
  cases hs : strrchrSuffix '.' filename with
  | none =>
    simp only [Bool.false_eq_true, false_iff]
    rintro ⟨pre, ext, hf, hpre, hne, e, he, hc⟩
    rw [hf, strrchrSuffix_append '.' pre ext hne] at hs
    exact absurd hs (by simp)
  | some fe =>
    obtain ⟨pre, t, hl, hfe, hnt⟩ := strrchrSuffix_some_spec '.' filename fe hs
    subst hfe
    dsimp only
    by_cases hlen : ('.' :: t).length = filename.length
    · rw [if_pos hlen]
      have hpre : pre = [] := by
        have hlg := congrArg List.length hl
        rw [List.length_append] at hlg
        apply List.eq_nil_of_length_eq_zero
        omega
      simp only [Bool.false_eq_true, false_iff]
      rintro ⟨pre2, ext2, hf2, hpre2, hne2, e, he, hc⟩
      obtain ⟨hp, -⟩ := lastSep_unique (hl.symm.trans hf2) hnt hne2
      rw [hpre] at hp
      exact hpre2 hp.symm
    · rw [if_neg hlen]
      have hpre : pre ≠ [] := by
        intro hp
        apply hlen
        rw [hp, List.nil_append] at hl
        rw [hl]
      constructor
      · intro hany
        rw [List.any_eq_true] at hany
        obtain ⟨e, he, hc⟩ := hany
        exact ⟨pre, t, hl, hpre, hnt, e, he, hc⟩
      · rintro ⟨pre2, ext2, hf2, hpre2, hne2, e, he, hc⟩
        obtain ⟨-, ht⟩ := lastSep_unique (hl.symm.trans hf2) hnt hne2
        rw [List.any_eq_true]
        exact ⟨e, he, by rw [ht]; exact hc⟩

/-! ## C10 -/

/-- The width-dispatched decode of the manifest bytes, projected to the
per-record filenames (the name source of `ssmc_list_contents`). -/
def decodeNames (env : Env) (header : FileHeader) (manifest_buffer : List Nat) :
    Option (List String) :=
  if header.hash_type = 1 then
    (env.parse_file_metadata_u64 manifest_buffer header.man_length).map
      (fun pm => pm.manifests.map (fun m => m.filename))
  else if header.hash_type = 2 then
    (env.parse_file_metadata_u128 manifest_buffer header.man_length).map
      (fun pm => pm.manifests.map (fun m => m.filename))
  else
    none

/-- The decoded filename list of the archive: the front half of
`ssmc_list_contents` (open, header, magic, manifest load), then
`decodeNames`. -/
def manifestNames (env : Env) : Option (List String) :=
  if env.fopenArchiveOk then
    match env.readHeader with
    | none => none
    | some header =>
      if header.magic_num = env.MAGIC then
        match env.read header.man_offset header.man_length with
        | none => none
        | some manifest_buffer => decodeNames env header manifest_buffer
      else
        none
  else
    none

theorem buildEntries_getElem (fs : List String) (k i : Nat) :
    (buildEntries fs k)[i]? = (fs[i]?).map
      (fun f => ArchiveEntry.mk f ArchiveEntryType.file (k + i)) := by
  induction fs generalizing k i with
  | nil => simp [buildEntries]
  | cons f rest ih =>
    cases i with
    | zero => simp [buildEntries]
    | succ j =>
      have harith : k + 1 + j = k + (j + 1) := by omega
      rw [buildEntries, List.getElem?_cons_succ, List.getElem?_cons_succ,
        ih (k + 1) j, harith]

theorem buildEntries_length (fs : List String) (k : Nat) :
    (buildEntries fs k).length = fs.length := by
  induction fs generalizing k with
  | nil => rfl
  | cons f rest ih => simp [buildEntries, ih]

theorem list_decode_spec (env : Env) (header : FileHeader) (mbuf : List Nat) :
    ((list_decode env header mbuf).1 = none ↔ (list_decode env header mbuf).2 = 0) ∧
    ∀ l, (list_decode env header mbuf).1 = some l →
      (list_decode env header mbuf).2 = l.length ∧
      ∃ names, decodeNames env header mbuf = some names ∧ names ≠ [] ∧
        l.length = names.length ∧
        ∀ i : Nat, l[i]? = (names[i]?).map
          (fun f => ArchiveEntry.mk f ArchiveEntryType.file i) := by
  unfold list_decode decodeNames
  by_cases h1 : header.hash_type = 1
  · rw [if_pos h1, if_pos h1]
    cases hp : env.parse_file_metadata_u64 mbuf header.man_length with
    | none => simp
    | some pm =>
      dsimp only
      by_cases hz : pm.manifests.length = 0
      · simp [hz]
      · rw [if_neg hz]
        refine ⟨by simp [hz], ?_⟩
        intro l hl
        have hble : buildEntries (pm.manifests.map (fun m => m.filename)) 0 = l := by
          simpa using hl
        subst hble
        refine ⟨by simp [buildEntries_length],
          pm.manifests.map (fun m => m.filename), by simp, ?_, ?_, ?_⟩
        · intro hn
          exact hz (by simpa using congrArg List.length hn)
        · rw [buildEntries_length]
        · intro i
          rw [buildEntries_getElem]
          simp
  · by_cases h2 : header.hash_type = 2
    · rw [if_neg h1, if_pos h2, if_neg h1, if_pos h2]
      cases hp : env.parse_file_metadata_u128 mbuf header.man_length with
      | none => simp
      | some pm =>
        dsimp only
        by_cases hz : pm.manifests.length = 0
        · simp [hz]
        · rw [if_neg hz]
          refine ⟨by simp [hz], ?_⟩
          intro l hl
          have hble : buildEntries (pm.manifests.map (fun m => m.filename)) 0 = l := by
            simpa using hl
          subst hble
          refine ⟨by simp [buildEntries_length],
            pm.manifests.map (fun m => m.filename), by simp, ?_, ?_, ?_⟩
          · intro hn
            exact hz (by simpa using congrArg List.length hn)
          · rw [buildEntries_length]
          · intro i
            rw [buildEntries_getElem]
            simp
    · rw [if_neg h1, if_neg h2, if_neg h1, if_neg h2]
      simp

/-- C10: count/result coherence of the SSMC lister.  The returned
pointer is NULL exactly when `*count` is left 0; on success `*count`
equals the entry count, which equals the (non-zero) number of decoded
manifest records, and entry `i` carries the `i`-th manifest filename,
kind `ARCHIVE_ENTRY_FILE`, and index `i`. -/
theorem ssmc_list_coherent (env : Env) :
    ((ssmc_list_contents env).1 = none ↔ (ssmc_list_contents env).2 = 0) ∧
    ∀ l, (ssmc_list_contents env).1 = some l →
      (ssmc_list_contents env).2 = l.length ∧
      ∃ names, manifestNames env = some names ∧ names ≠ [] ∧
        l.length = names.length ∧
        ∀ i : Nat, l[i]? = (names[i]?).map
          (fun f => ArchiveEntry.mk f ArchiveEntryType.file i) := by
  unfold ssmc_list_contents manifestNames
  by_cases hopen : env.fopenArchiveOk = true
  · rw [if_pos hopen, if_pos hopen]
    cases hhdr : env.readHeader with
    | none => simp
    | some hdr =>
      dsimp only
      by_cases hmagic : hdr.magic_num = env.MAGIC
      · rw [if_pos hmagic, if_pos hmagic]
        cases hman : env.read hdr.man_offset hdr.man_length with
        | none => simp
        | some mbuf => exact list_decode_spec env hdr mbuf
      · rw [if_neg hmagic, if_neg hmagic]
        simp
  · rw [if_neg hopen, if_neg hopen]
    simp

/-- C10 witness: in `env0` the lister returns one entry for the single
manifest record "a.txt", with count 1 and coherent entry fields. -/
theorem ssmc_list_coherent_witness :
    (ssmc_list_contents env0).2 = (buildEntries ["a.txt"] 0).length ∧
    ∃ names, manifestNames env0 = some names ∧ names ≠ [] ∧
      (buildEntries ["a.txt"] 0).length = names.length ∧
      ∀ i : Nat, (buildEntries ["a.txt"] 0)[i]? = (names[i]?).map
        (fun f => ArchiveEntry.mk f ArchiveEntryType.file i) :=
  (ssmc_list_coherent env0).2 (buildEntries ["a.txt"] 0) (by decide)

end MuosArchive
